import Mathlib

/-!
# Verification of the NexAU-harbor coding-agent runtime

Shallow embedding of the pure cores of the runtime's tool layer and
middleware (from `src/nexau_harbor` and `src/code_agent_gemini_cli`),
together with theorems settling the frozen claims about it.

Modelling conventions:
* Python `str` values are Lean `String`s; the string helpers in `PyStr`
  implement the exact semantics of the Python operations used by the code
  (`str.count`, `str.replace`, `str.strip`, `str.split`, slicing), for the
  ASCII whitespace set `{space, tab, LF, CR, VT, FF}` that Python treats as
  whitespace on the inputs appearing in this development.
* Filesystem and subprocess interactions are passed in explicitly as
  environment records (file existence, sizes, contents, subprocess exit
  codes and output); the embedded functions are the pure decision logic of
  the tools applied to such an environment.
* Free-prose `message` strings attached to error results are presentation
  only and are elided; the stable `type` discriminants and every computed
  datum (occurrence counts, offsets, written file contents, token counts)
  are embedded faithfully.
-/

namespace PyStr

/-- Python whitespace characters (`str.strip` / regex `\s`, ASCII part):
space, tab, LF, CR, vertical tab, form feed. -/
def isPyWs (c : Char) : Bool :=
  c == ' ' || c == '\t' || c == '\n' || c == '\r' ||
    c == Char.ofNat 11 || c == Char.ofNat 12

/-- Scanner for `countL`: when the skip counter is positive the scanner is
inside an already-matched occurrence and just consumes characters; at
skip 0 it tests for a match at the current position and, on success,
counts it and skips the remaining `pat.length - 1` matched characters. -/
def countAux (pat : List Char) : List Char → Nat → Nat
  | [], _ => 0
  | _ :: rest, Nat.succ k => countAux pat rest k
  | c :: rest, 0 =>
    if pat.isPrefixOf (c :: rest) then 1 + countAux pat rest (pat.length - 1)
    else countAux pat rest 0

/-- Non-overlapping occurrence count, scanning left to right:
Python `s.count(pat)` for non-empty `pat` (the empty pattern is never
counted by the embedded code; 0 is a sentinel for it). -/
def countL (s pat : List Char) : Nat :=
  if pat.isEmpty then 0 else countAux pat s 0

/-- Replace the first occurrence of `pat`, scanning left to right:
Python `s.replace(pat, rep, 1)` for non-empty `pat`. -/
def replaceFirstL (s pat rep : List Char) : List Char :=
  match s, pat with
  | s, [] => s
  | [], _ => []
  | c :: rest, p :: ps =>
    if (p :: ps).isPrefixOf (c :: rest) then
      rep ++ (c :: rest).drop (p :: ps).length
    else
      c :: replaceFirstL rest (p :: ps) rep

/-- Scanner for `replaceAllL`, with the same skip-counter scheme as
`countAux`: matched characters are dropped and `rep` is emitted in their
place. -/
def replaceAllAux (pat rep : List Char) : List Char → Nat → List Char
  | [], _ => []
  | _ :: rest, Nat.succ k => replaceAllAux pat rep rest k
  | c :: rest, 0 =>
    if pat.isPrefixOf (c :: rest) then rep ++ replaceAllAux pat rep rest (pat.length - 1)
    else c :: replaceAllAux pat rep rest 0

/-- Replace every non-overlapping occurrence of `pat`, scanning left to
right: Python `s.replace(pat, rep)` for non-empty `pat` (the code never
replaces an empty pattern; `s` is a sentinel for it). -/
def replaceAllL (s pat rep : List Char) : List Char :=
  if pat.isEmpty then s else replaceAllAux pat rep s 0

def pyCount (s pat : String) : Nat := countL s.toList pat.toList

def pyReplaceFirst (s pat rep : String) : String :=
  ⟨replaceFirstL s.toList pat.toList rep.toList⟩

def pyReplaceAll (s pat rep : String) : String :=
  ⟨replaceAllL s.toList pat.toList rep.toList⟩

/-- Substring search, scanning left to right. -/
def containsL (s pat : List Char) : Bool :=
  match s, pat with
  | _, [] => true
  | [], _ => false
  | c :: rest, p :: ps => (p :: ps).isPrefixOf (c :: rest) || containsL rest (p :: ps)

/-- Python `pat in s` (substring containment). -/
def pyContains (s pat : String) : Bool := containsL s.toList pat.toList

/-- Python `s.strip()` restricted to the ASCII whitespace set. -/
def pyStrip (s : String) : String :=
  ⟨((s.toList.dropWhile isPyWs).reverse.dropWhile isPyWs).reverse⟩

/-- Python `s.rstrip("\n")`: drop every trailing LF. -/
def pyRstripNl (s : String) : String :=
  ⟨(s.toList.reverse.dropWhile (fun c => c == '\n')).reverse⟩

/-- Python `s.endswith("\n")`. -/
def endsWithNl (s : String) : Bool :=
  match s.toList.getLast? with
  | some c => c = '\n'
  | none => false

/-- Python `s.startswith(pre)`. -/
def pyStartsWith (s pre : String) : Bool := pre.toList.isPrefixOf s.toList

/-- Split on a single character, keeping empty fields:
Python `s.split(sep)` for a one-character separator. -/
def splitCharL (sep : Char) : List Char → List (List Char)
  | [] => [[]]
  | c :: rest =>
    if c = sep then [] :: splitCharL sep rest
    else
      match splitCharL sep rest with
      | [] => [[c]]
      | h :: t => (c :: h) :: t

def pySplitChar (sep : Char) (s : String) : List String :=
  (splitCharL sep s.toList).map (⟨·⟩)

/-- Python `s.split("\n")`. -/
def pySplitNl (s : String) : List String := pySplitChar '\n' s

/-- Python `"\n".join(xs)`. -/
def joinNl (xs : List String) : String := String.intercalate "\n" xs

/-- Python `s.split()` (no separator): split on whitespace runs, dropping
empty fields. -/
def splitWsAux : List Char → List Char → List (List Char)
  | [], acc => if acc.isEmpty then [] else [acc.reverse]
  | c :: rest, acc =>
    if isPyWs c then
      if acc.isEmpty then splitWsAux rest []
      else acc.reverse :: splitWsAux rest []
    else
      splitWsAux rest (c :: acc)

def pySplitWs (s : String) : List String := (splitWsAux s.toList []).map (⟨·⟩)

end PyStr

/-! ## The `replace` edit engine (`src/nexau_harbor/tool_impl/replace.py`) -/

namespace Replace

/-- `_detect_line_ending` (replace.py lines 31-37). -/
def detectLineEnding (content : String) : String :=
  if PyStr.pyContains content "\r\n" then "\r\n"
  else if PyStr.pyContains content "\n" then "\n"
  else "\n"

/-- `_restore_trailing_newline` (replace.py lines 40-47). -/
def restoreTrailingNewline (original modified : String) : String :=
  let hadTrailing := PyStr.endsWithNl original
  if hadTrailing ∧ ¬ PyStr.endsWithNl modified then modified ++ "\n"
  else if ¬ hadTrailing ∧ PyStr.endsWithNl modified then PyStr.pyRstripNl modified
  else modified

/-- `_safe_literal_replace` (replace.py lines 50-53): Python
`content.replace(old_string, new_string, 1)` — note the explicit count of
1, so only the first occurrence is replaced. -/
def safeLiteralReplace (content old new : String) : String :=
  PyStr.pyReplaceFirst content old new

/-- `_calculate_exact_replacement` (replace.py lines 56-67). -/
def calcExact (content old new : String) : Option (String × Nat) :=
  let nOld := PyStr.pyReplaceAll old "\r\n" "\n"
  let nNew := PyStr.pyReplaceAll new "\r\n" "\n"
  let occurrences := PyStr.pyCount content nOld
  if occurrences > 0 then
    let modified := safeLiteralReplace content nOld nNew
    some (restoreTrailingNewline content modified, occurrences)
  else none

/-- Leading whitespace of a line: the regex `^(\s*)` capture
(replace.py lines 88-90). -/
def leadingWs (s : String) : String := ⟨s.toList.takeWhile PyStr.isPyWs⟩

/-- The `while` loop of `_calculate_flexible_replacement`
(replace.py lines 79-97): slide a window of `search.length` lines over
`sLines`, compare stripped lines, and on a match splice in the
replacement lines re-indented to the window's first line.  `search` is
the already-stripped list of lines of the old string; it is never empty
(Python `split` yields at least one field), so the first guard is
unreachable from `calcFlexible` and exists only for termination. -/
def flexLoop (search : List String) (rep : List String)
    (sLines : List String) (i : Nat) (occ : Nat) : List String × Nat :=
  if hs : search.length = 0 then (sLines, occ)
  else if h : i + search.length ≤ sLines.length then
    let window := (sLines.drop i).take search.length
    if window.map PyStr.pyStrip = search then
      let indentation := leadingWs (window.headD "")
      let newBlock := rep.map (fun l => indentation ++ l)
      let newLines := sLines.take i ++ newBlock ++ sLines.drop (i + search.length)
      flexLoop search rep newLines (i + rep.length) (occ + 1)
    else
      flexLoop search rep sLines (i + 1) occ
  else (sLines, occ)
termination_by sLines.length - i
decreasing_by
  · simp only [List.length_append, List.length_take, List.length_drop, List.length_map]
    omega
  · omega

/-- `_calculate_flexible_replacement` (replace.py lines 70-103). -/
def calcFlexible (content old new : String) : Option (String × Nat) :=
  let nOld := PyStr.pyReplaceAll old "\r\n" "\n"
  let nNew := PyStr.pyReplaceAll new "\r\n" "\n"
  let sourceLines := PyStr.pySplitNl content
  let searchStripped := (PyStr.pySplitNl nOld).map PyStr.pyStrip
  let replaceLines := PyStr.pySplitNl nNew
  let res := flexLoop searchStripped replaceLines sourceLines 0 0
  if res.2 > 0 then
    some (restoreTrailingNewline content (PyStr.joinNl res.1), res.2)
  else none

/-- Matching of the token part `tok1 \s* tok2 \s* ... \s* tokN` of the
flexible regex built in `_calculate_regex_replacement` (replace.py lines
121-123).  Returns the number of characters consumed.  Tokens come from
Python `split()` and therefore start with a non-whitespace character, so
the greedy `\s*` between tokens matches exactly the maximal whitespace
run. -/
def matchToks : List (List Char) → List Char → Option Nat
  | [], _ => some 0
  | [t], s => if t.isPrefixOf s then some t.length else none
  | t :: t2 :: ts, s =>
    if t.isPrefixOf s then
      let rest := s.drop t.length
      let ws := rest.takeWhile PyStr.isPyWs
      match matchToks (t2 :: ts) (rest.drop ws.length) with
      | some n => some (t.length + ws.length + n)
      | none => none
    else none

/-- `re.search` of the anchored pattern `^(\s*) tok1 \s* ... \s* tokN`
with `re.MULTILINE` (replace.py lines 123-132): try every line-start
position left to right; at each, capture the maximal whitespace run as
the indentation and then match the token chain.  Returns
`(indentation, start, stop)` of the leftmost match. -/
def regexSearchAux (toks : List (List Char)) :
    List Char → Nat → Bool → Option (String × Nat × Nat)
  | s, pos, atLineStart =>
    let here : Option (String × Nat × Nat) :=
      if atLineStart then
        let ws := s.takeWhile PyStr.isPyWs
        match matchToks toks (s.drop ws.length) with
        | some n => some (⟨ws⟩, pos, pos + ws.length + n)
        | none => none
      else none
    match here with
    | some r => some r
    | none =>
      match s with
      | [] => none
      | c :: rest => regexSearchAux toks rest (pos + 1) (c = '\n')

def regexSearch (toks : List (List Char)) (content : List Char) :
    Option (String × Nat × Nat) :=
  regexSearchAux toks content 0 true

/-- The delimiters spaced out before tokenization
(replace.py line 112). -/
def regexDelims : List String :=
  ["(", ")", ":", "[", "]", "\x7b", "\x7d", ">", "<", "="]

/-- `_calculate_regex_replacement` (replace.py lines 106-141).  The
tokens are `re.escape`d, so the compiled pattern is always valid and the
`except re.error` branch is unreachable; replacement-template escape
processing of `re.sub` is not modelled (the replacement blocks appearing
in this development contain no backslash). -/
def calcRegex (content old new : String) : Option (String × Nat) :=
  let nOld := PyStr.pyReplaceAll old "\r\n" "\n"
  let nNew := PyStr.pyReplaceAll new "\r\n" "\n"
  let processed := regexDelims.foldl
    (fun s d => PyStr.pyReplaceAll s d (" " ++ d ++ " ")) nOld
  let tokens := PyStr.pySplitWs processed
  if tokens.isEmpty then none
  else
    match regexSearch (tokens.map String.toList) content.toList with
    | none => none
    | some (indentation, start, stop) =>
      let newLines := PyStr.pySplitNl nNew
      let newBlock := PyStr.joinNl (newLines.map (fun l => indentation ++ l))
      let modified :=
        String.mk (content.toList.take start) ++ newBlock ++
          String.mk (content.toList.drop stop)
      some (restoreTrailingNewline content modified, 1)

/-- Outcome of the `replace` tool, by error `type` discriminant, with the
data the success paths compute (replace.py lines 158-306).  Prose
`message`/`error` strings and the display diff are elided. -/
inductive ReplaceResult where
  | noChange
  | createdNew (content : String)
  | fileNotFound
  | fileExistsError
  | noOccurrence
  | occurrenceMismatch (found : Nat)
  | updated (written : String) (occurrences : Nat) (strategy : String)
deriving DecidableEq, Repr

/-- The pure decision core of `replace` (replace.py lines 186-306): the
filesystem is summarized by whether the file exists and its current
content.  On `updated`, `written` is exactly the string written back to
the file. -/
def replaceTool (fileExists : Bool) (currentContent : String)
    (old new : String) (expectedReplacements : Option Int) : ReplaceResult :=
  let expected : Int := expectedReplacements.getD 1
  if old = new then .noChange
  else if old = "" ∧ ¬ fileExists then .createdNew new
  else if ¬ fileExists then .fileNotFound
  else if old = "" then .fileExistsError
  else
    let normalizedContent := PyStr.pyReplaceAll currentContent "\r\n" "\n"
    let originalLineEnding := detectLineEnding currentContent
    let res :=
      match calcExact normalizedContent old new with
      | some r => some (r, "exact")
      | none =>
        match calcFlexible normalizedContent old new with
        | some r => some (r, "flexible")
        | none =>
          match calcRegex normalizedContent old new with
          | some r => some (r, "regex")
          | none => none
    match res with
    | none => .noOccurrence
    | some ((newContent, occurrences), strategy) =>
      if (occurrences : Int) ≠ expected then .occurrenceMismatch occurrences
      else
        let finalContent :=
          if originalLineEnding = "\r\n" then PyStr.pyReplaceAll newContent "\n" "\r\n"
          else newContent
        .updated finalContent occurrences strategy

end Replace

/-! ## The `write_file` tool (`src/code_agent_gemini_cli/tool_impl/write_file.py`) -/

namespace WriteFile

/-- `_detect_line_ending` (write_file.py lines 15-23); unlike the
`replace` variant this one also recognizes a lone-CR file. -/
def detectLineEnding (content : String) : String :=
  if PyStr.pyContains content "\r\n" then "\r\n"
  else if PyStr.pyContains content "\n" then "\n"
  else if PyStr.pyContains content "\r" then "\r"
  else "\n"

/-- Python `s.splitlines()` for the terminators `\n`, `\r\n`, `\r`
(the only ones produced by the embedded code). -/
def splitlinesAux : List Char → List Char → List (List Char)
  | [], acc => if acc.isEmpty then [] else [acc.reverse]
  | '\r' :: '\n' :: rest, acc => acc.reverse :: splitlinesAux rest []
  | '\r' :: rest, acc => acc.reverse :: splitlinesAux rest []
  | '\n' :: rest, acc => acc.reverse :: splitlinesAux rest []
  | c :: rest, acc => splitlinesAux rest (c :: acc)

def pySplitlines (s : String) : List String :=
  (splitlinesAux s.toList []).map (⟨·⟩)

/-- The CRLF re-encoding of write_file.py line 86:
`content.replace("\r\n", "\n").replace("\n", "\r\n")`. -/
def crlfEncode (content : String) : String :=
  PyStr.pyReplaceAll (PyStr.pyReplaceAll content "\r\n" "\n") "\n" "\r\n"

/-- The `final_content` computation of write_file.py lines 66-86: detect
the existing file's line ending and re-encode to CRLF only when the file
exists and was CRLF. -/
def writeFinalContent (fileExists : Bool) (originalContent content : String) : String :=
  let originalLineEnding :=
    if fileExists then detectLineEnding originalContent else "\n"
  if fileExists ∧ originalLineEnding = "\r\n" then crlfEncode content
  else content

/-- Outcome of `write_file` (write_file.py lines 33-107), with the exact
string written to disk on success. -/
inductive WriteResult where
  | targetIsDirectory
  | written (finalContent : String) (operation : String) (numLines : Nat)
deriving DecidableEq, Repr

/-- The pure decision core of `write_file` (write_file.py lines 50-107):
the filesystem is summarized by whether the path is a directory, whether
the file exists, and its current content. -/
def writeFile (isDir fileExists : Bool) (originalContent content : String) :
    WriteResult :=
  if isDir then .targetIsDirectory
  else
    let operation := if fileExists then "update" else "create"
    let finalContent := writeFinalContent fileExists originalContent content
    .written finalContent operation (pySplitlines finalContent).length

end WriteFile

/-! ## Context compaction (`src/nexau_harbor/compact_context_hook.py`) -/

namespace Compact

structure FunctionSpec where
  name : String
  arguments : String
deriving DecidableEq, Repr

structure MsgToolCall where
  id : String
  function : FunctionSpec
deriving DecidableEq, Repr

/-- A conversation message dict: `{role, content, name?, tool_call_id?,
tool_calls?}` with string content (the shape every claim about the
compactor concerns). -/
structure Message where
  role : String
  content : String
  name : String := ""
  toolCallId : String := ""
  toolCalls : List MsgToolCall := []
deriving DecidableEq, Repr

/-- `default_token_counter` (compact_context_hook.py lines 15-22):
`len(text) // 4`, 0 for the empty string. -/
def defaultTokenCounter (text : String) : Nat :=
  if text = "" then 0 else text.length / 4

/-- Middleware configuration (compact_context_hook.py lines 54-73).  The
float ratios `compression_threshold` and `preserve_ratio` are embedded as
exact fractions `num/den`; the Python expressions `int(x * ratio)` equal
the floor divisions used here whenever the float products are exact
(e.g. for the ratios 1/2 and 1/4 used in the concrete instances below).
`snapshotGen` is `some` exactly when `enable_state_snapshot` is set and a
generator is configured; the generator is modelled as total, so the
`except` fallback of lines 202-204 is not reachable. -/
structure Config where
  maxContextTokens : Nat
  thresholdNum : Nat
  thresholdDen : Nat
  preserveNum : Nat
  preserveDen : Nat
  toolOutputBudget : Nat
  truncateLines : Nat
  snapshotGen : Option (List Message → String) := none

/-- `_count_message_tokens` (lines 75-101) for a message with string
content: content tokens + 10 overhead + tokens of each tool call's
function name and serialized arguments. -/
def countMessageTokens (tc : String → Nat) (m : Message) : Nat :=
  tc m.content + 10 +
    (m.toolCalls.map (fun c => tc c.function.name + tc c.function.arguments)).sum

/-- `_count_messages_tokens` (lines 103-105). -/
def countMessagesTokens (tc : String → Nat) (ms : List Message) : Nat :=
  (ms.map (countMessageTokens tc)).sum

/-- Python `content[-maxChars:]`: the last `maxChars` characters — except
that `content[-0:]` is the whole string. -/
def pyLastChars (maxChars : Nat) (s : String) : String :=
  if maxChars = 0 then s else ⟨s.toList.drop (s.toList.length - maxChars)⟩

/-- Per-message step of `_truncate_tool_outputs` (lines 214-246): tool or
function messages whose content exceeds the token budget are cut to the
last `truncate_lines` lines (line-count case) or the last
`budget * 4` characters (single-blob case), with a notice prepended. -/
def truncateMessage (cfg : Config) (tc : String → Nat) (m : Message) : Message :=
  if m.role = "tool" ∨ m.role = "function" then
    let contentTokens := tc m.content
    if contentTokens > cfg.toolOutputBudget then
      let lines := PyStr.pySplitNl m.content
      if lines.length > cfg.truncateLines then
        let truncatedLines := lines.drop (lines.length - cfg.truncateLines)
        let notice := "[... " ++ toString (lines.length - cfg.truncateLines) ++
          " lines truncated ...]\n"
        { m with content := notice ++ PyStr.joinNl truncatedLines }
      else
        let maxChars := cfg.toolOutputBudget * 4
        let notice := "[... truncated to last ~" ++ toString cfg.toolOutputBudget ++
          " tokens ...]\n"
        { m with content := notice ++ pyLastChars maxChars m.content }
    else m
  else m

/-- `_truncate_tool_outputs` (lines 214-246). -/
def truncateToolOutputs (cfg : Config) (tc : String → Nat)
    (msgs : List Message) : List Message :=
  msgs.map (truncateMessage cfg tc)

/-- The preserve walk of `_compress_history` (lines 176-186): iterate the
truncated conversation newest-to-oldest (the argument is the reversed
list), keep accumulating messages while the running token total stays
within `budget`, and stop at the first message that does not fit.
Returns the preserved messages in chronological order together with
their token total. -/
def preserveWalk (tc : String → Nat) (budget : Nat) :
    List Message → Nat → List Message × Nat
  | [], acc => ([], acc)
  | m :: rest, acc =>
    let t := countMessageTokens tc m
    if acc + t ≤ budget then
      let r := preserveWalk tc budget rest (acc + t)
      (r.1 ++ [m], r.2)
    else ([], acc)

/-- The system-message part of the partition at lines 159-167. -/
def systemPart (msgs : List Message) : List Message :=
  msgs.filter (fun m => m.role = "system")

/-- The conversational part of the partition at lines 159-167. -/
def conversationPart (msgs : List Message) : List Message :=
  msgs.filter (fun m => ¬ m.role = "system")

/-- The truncated conversation of line 170. -/
def truncatedConversation (cfg : Config) (tc : String → Nat)
    (msgs : List Message) : List Message :=
  truncateToolOutputs cfg tc (conversationPart msgs)

/-- `preserve_tokens` of line 174: `int(conv_tokens * preserve_ratio)`. -/
def preserveBudget (cfg : Config) (tc : String → Nat)
    (msgs : List Message) : Nat :=
  countMessagesTokens tc (truncatedConversation cfg tc msgs) * cfg.preserveNum /
    cfg.preserveDen

/-- The preserved tail of lines 176-186. -/
def preservedPart (cfg : Config) (tc : String → Nat)
    (msgs : List Message) : List Message :=
  (preserveWalk tc (preserveBudget cfg tc msgs)
    (truncatedConversation cfg tc msgs).reverse 0).1

/-- `preserved_tokens` accumulated by the walk. -/
def preservedTokens (cfg : Config) (tc : String → Nat)
    (msgs : List Message) : Nat :=
  (preserveWalk tc (preserveBudget cfg tc msgs)
    (truncatedConversation cfg tc msgs).reverse 0).2

/-- The fallback compaction notice of lines 206-210. -/
def compactionNotice (cfg : Config) (tc : String → Nat)
    (msgs : List Message) : Message :=
  let tconv := truncatedConversation cfg tc msgs
  let preserved := preservedPart cfg tc msgs
  let removedCount := tconv.length - preserved.length
  let removedTokens := countMessagesTokens tc tconv - preservedTokens cfg tc msgs
  { role := "system",
    content := "[Context compacted: " ++ toString removedCount ++
      " messages (~" ++ toString removedTokens ++
      " tokens) removed. Preserved newest " ++ toString preserved.length ++
      " messages.]" }

/-- `_compress_history` (lines 148-212). -/
def compressHistory (cfg : Config) (tc : String → Nat)
    (msgs : List Message) : List Message :=
  let tconv := truncatedConversation cfg tc msgs
  let preserved := preservedPart cfg tc msgs
  match cfg.snapshotGen with
  | some gen =>
    let removedMessages := tconv.take (tconv.length - preserved.length)
    let snapshot : Message := { role := "system", content := gen removedMessages }
    systemPart msgs ++ [snapshot] ++ preserved
  | none =>
    systemPart msgs ++ [compactionNotice cfg tc msgs] ++ preserved

/-- `threshold_tokens` of line 123: `int(max_context_tokens * threshold)`. -/
def thresholdTokens (cfg : Config) : Nat :=
  cfg.maxContextTokens * cfg.thresholdNum / cfg.thresholdDen

/-- `before_model` (lines 107-146): `none` models
`HookResult.no_changes()`, `some ms` models
`HookResult.with_modifications(messages=ms)`. -/
def beforeModel (cfg : Config) (tc : String → Nat)
    (messages : List Message) : Option (List Message) :=
  if messages.isEmpty then none
  else
    let totalTokens := countMessagesTokens tc messages
    if totalTokens < thresholdTokens cfg then none
    else
      let compacted := compressHistory cfg tc messages
      if compacted ≠ messages then some compacted else none

end Compact

/-! ## Termination protocol (`src/nexau_harbor/complete_task_hook.py`) -/

namespace CompleteTask

/-- A parsed tool call: `{tool_name, parameters}` with string-valued
parameters. -/
structure ToolCall where
  toolName : String
  parameters : List (String × String)
deriving DecidableEq, Repr

/-- Python `parameters.get(key, dflt)`. -/
def getParam (ps : List (String × String)) (key dflt : String) : String :=
  match ps.find? (fun kv => kv.1 = key) with
  | some kv => kv.2
  | none => dflt

structure ParsedResponse where
  text : String := ""
  toolCalls : List ToolCall
deriving DecidableEq, Repr

/-- Middleware state (complete_task_hook.py lines 17-20). -/
structure MState where
  taskCompleted : Bool
  finalResult : String
  noToolCallCount : Nat
deriving DecidableEq, Repr

/-- The state set up by `__init__`. -/
def initState : MState := ⟨false, "", 0⟩

/-- The after-model `HookResult`: `parsedResponse = some p` models
`with_modifications(parsed_response=p)`, `forceContinue = true` models
`with_modifications(force_continue=True)`; the default is
`no_changes()`. -/
structure AfterModelResult where
  parsedResponse : Option ParsedResponse := none
  forceContinue : Bool := false
deriving DecidableEq, Repr

def completeTaskToolName : String := "complete_task"

/-- `after_model` (complete_task_hook.py lines 36-72), as a pure
transition on the middleware state.  A `none` parsed response models the
falsy case of line 41. -/
def afterModel (st : MState) (parsed : Option ParsedResponse) :
    MState × AfterModelResult :=
  match parsed with
  | none =>
    let st := { st with noToolCallCount := st.noToolCallCount + 1 }
    if st.noToolCallCount ≥ 2 then (st, {})
    else (st, { forceContinue := true })
  | some p =>
    match p.toolCalls.find? (fun c => c.toolName = completeTaskToolName) with
    | some call =>
      ({ st with taskCompleted := true,
                 finalResult := getParam call.parameters "result" "" },
       { parsedResponse := some { p with toolCalls := [] } })
    | none =>
      if p.toolCalls.length > 0 then ({ st with noToolCallCount := 0 }, {})
      else
        let st := { st with noToolCallCount := st.noToolCallCount + 1 }
        if st.noToolCallCount ≥ 2 then (st, {})
        else (st, { forceContinue := true })

/-- The synthetic grace-period warning injected by `before_model`
(complete_task_hook.py lines 25-32). -/
def graceMessage : Compact.Message :=
  { role := "user",
    content := "You have stopped calling tools without finishing. " ++
      "You have one final chance. You MUST call `complete_task` immediately " ++
      "with your best answer. Do not call any other tools." }

/-- `before_model` (complete_task_hook.py lines 22-34): appends the grace
warning exactly when `no_tool_call_count == 1`. -/
def beforeModel (st : MState) (messages : List Compact.Message) :
    Option (List Compact.Message) :=
  if st.noToolCallCount = 1 then some (messages ++ [graceMessage]) else none

end CompleteTask

/-! ## The `read_file` tool (`src/nexau_harbor/tool_impl/read_file.py`) -/

namespace ReadFile

/-- `DEFAULT_LINE_LIMIT` (read_file.py line 18). -/
def defaultLineLimit : Nat := 2000

/-- `MAX_FILE_SIZE_BYTES` (read_file.py line 19): 10 MiB. -/
def maxFileSizeBytes : Nat := 10 * 1024 * 1024

/-- The filesystem view `read_file` consults: existence, directory flag,
byte size, the media kind detected from the extension (`some` for
image/audio/PDF), and the decoded line list produced by `readlines()`
(each line keeps its terminator). -/
structure FileInfo where
  fileExists : Bool
  isDir : Bool
  size : Nat
  binaryKind : Option String
  lines : List String
deriving Repr

/-- `start_line` of read_file.py line 190: a present, non-negative offset
is used as is; a missing or negative offset becomes 0. -/
def effStart (offset : Option Int) : Nat :=
  match offset with
  | some o => if o ≥ 0 then o.toNat else 0
  | none => 0

/-- The line-count budget of read_file.py line 191: a present, positive
limit is used as is; a missing or non-positive limit becomes the default
2000. -/
def effLimit (limit : Option Int) : Nat :=
  match limit with
  | some l => if l > 0 then l.toNat else defaultLineLimit
  | none => defaultLineLimit

/-- The slice data computed at read_file.py lines 187-213: the selected
lines `all_lines[start_line:end_line]`, the truncation flag
`end_line < total_lines`, and the `next_offset` hint
`start_line + lines_shown` reported in the truncation notice. -/
structure SliceResult where
  selected : List String
  startLine : Nat
  linesShown : Nat
  totalLines : Nat
  isTruncated : Bool
  nextOffset : Option Nat
deriving DecidableEq, Repr

def readSlice (allLines : List String) (offset limit : Option Int) : SliceResult :=
  let startLine := effStart offset
  let endLine := startLine + effLimit limit
  let selected := (allLines.drop startLine).take (endLine - startLine)
  let linesShown := selected.length
  let totalLines := allLines.length
  let isTruncated := decide (endLine < totalLines)
  { selected := selected, startLine := startLine, linesShown := linesShown,
    totalLines := totalLines, isTruncated := isTruncated,
    nextOffset := if isTruncated then some (startLine + linesShown) else none }

/-- Outcome of `read_file` by error `type`, inline-data kind, or the text
slice whose values are interpolated into the `llmContent` prose. -/
inductive ReadResult where
  | err (type : String)
  | binary (fileType : String)
  | text (slice : SliceResult)
deriving DecidableEq, Repr

/-- The decision core of `read_file` (read_file.py lines 126-221). -/
def readFile (f : FileInfo) (offset limit : Option Int) : ReadResult :=
  if ¬ f.fileExists then .err "FILE_NOT_FOUND"
  else if f.isDir then .err "PATH_IS_DIRECTORY"
  else if f.size > maxFileSizeBytes then .err "FILE_TOO_LARGE"
  else
    match f.binaryKind with
    | some kind => .binary kind
    | none => .text (readSlice f.lines offset limit)

end ReadFile

/-! ## `run_shell_command` validation
(`src/nexau_harbor/tool_impl/run_shell_command.py`) -/

namespace Shell

/-- Outcome of the validation prefix of `run_shell_command`
(run_shell_command.py lines 67-103).  `proceeds usedDirPath` marks that
validation passed and the subprocess is spawned (subprocess lifecycle is
outside the embedding); `usedDirPath` records whether a truthy
`dir_path` fixed the working directory. -/
inductive ShellOutcome where
  | invalidCommand
  | directoryNotFound
  | notADirectory
  | proceeds (usedDirPath : Bool)
deriving DecidableEq, Repr

/-- The error `type` attached to each validation failure. -/
def errorType : ShellOutcome → Option String
  | .invalidCommand => some "INVALID_COMMAND"
  | .directoryNotFound => some "DIRECTORY_NOT_FOUND"
  | .notADirectory => some "NOT_A_DIRECTORY"
  | .proceeds _ => none

/-- The validation prefix of `run_shell_command` (lines 67-103):
`if not command or not command.strip()` rejects empty and
whitespace-only commands; a truthy `dir_path` must exist and be a
directory. -/
def runShellCommand (command : String) (dirPath : Option String)
    (dirExists dirIsDir : Bool) : ShellOutcome :=
  if command = "" ∨ PyStr.pyStrip command = "" then .invalidCommand
  else
    let usesDirPath := (dirPath.getD "") ≠ ""
    if usesDirPath then
      if ¬ dirExists then .directoryNotFound
      else if ¬ dirIsDir then .notADirectory
      else .proceeds true
    else .proceeds false

end Shell

/-! ## `save_memory` validation (`src/nexau_harbor/tool_impl/save_memory.py`) -/

namespace Memory

/-- Outcome of the `save_memory` fact validation (save_memory.py lines
125-138).  `saved` marks that validation passed and the memory file is
rewritten (file I/O is outside the embedding). -/
inductive SaveOutcome where
  | invalidParameter
  | saved
deriving DecidableEq, Repr

def errorType : SaveOutcome → Option String
  | .invalidParameter => some "INVALID_PARAMETER"
  | .saved => none

/-- `if not fact or not fact.strip()` (save_memory.py line 127). -/
def saveMemory (fact : String) : SaveOutcome :=
  if fact = "" ∨ PyStr.pyStrip fact = "" then .invalidParameter else .saved

end Memory

/-! ## The `write_todos` tool
(`src/code_agent_gemini_cli/tool_impl/write_todos.py`) -/

namespace Todos

/-- A todo entry dict `{description, status}`; absent keys default to
`""` as with `todo.get(..., "")`. -/
structure TodoItem where
  description : String := ""
  status : String := ""
deriving DecidableEq, Repr

/-- `VALID_STATUSES` (write_todos.py line 14). -/
def validStatuses : List String := ["pending", "in_progress", "completed", "cancelled"]

/-- Outcome of `write_todos` by error `type`; `i` is the 1-based index
reported in the error message.  The `INVALID_TODO` non-dict case is
unrepresentable for typed items.  On success, `formatted` is the rendered
list and `summary` the per-status count summary text. -/
inductive TodosResult where
  | missingDescription (i : Nat)
  | invalidStatus (i : Nat)
  | multipleInProgress (count : Nat)
  | cleared
  | ok (formatted : String) (count : Nat) (summary : String)
deriving DecidableEq, Repr

def errorType : TodosResult → Option String
  | .missingDescription _ => some "MISSING_DESCRIPTION"
  | .invalidStatus _ => some "INVALID_STATUS"
  | .multipleInProgress _ => some "MULTIPLE_IN_PROGRESS"
  | .cleared => none
  | .ok _ _ _ => none

/-- The validation loop of write_todos.py lines 50-82: reject the first
entry with an empty (or whitespace-only) description or an illegal
status; otherwise collect `(index, stripped description, status)` and
count the `in_progress` entries. -/
def validateAux : List TodoItem → Nat → Nat → List (Nat × String × String) →
    Sum TodosResult (Nat × List (Nat × String × String))
  | [], _, cnt, acc => .inr (cnt, acc.reverse)
  | t :: rest, i, cnt, acc =>
    if t.description = "" ∨ PyStr.pyStrip t.description = "" then
      .inl (.missingDescription (i + 1))
    else if ¬ validStatuses.contains t.status then
      .inl (.invalidStatus (i + 1))
    else
      validateAux rest (i + 1)
        (cnt + (if t.status = "in_progress" then 1 else 0))
        ((i + 1, PyStr.pyStrip t.description, t.status) :: acc)

/-- Status glyph table (write_todos.py lines 102-107). -/
def statusSymbol (s : String) : String :=
  if s = "pending" then "○"
  else if s = "in_progress" then "◉"
  else if s = "completed" then "✓"
  else if s = "cancelled" then "✗"
  else "?"

/-- One formatted line (write_todos.py line 112). -/
def formatLine (e : Nat × String × String) : String :=
  toString e.1 ++ ". [" ++ statusSymbol e.2.2 ++ "] [" ++ e.2.2 ++ "] " ++ e.2.1

/-- Count of entries with the given status (write_todos.py lines 115-117). -/
def countStatus (validated : List (Nat × String × String)) (st : String) : Nat :=
  (validated.filter (fun e => e.2.2 = st)).length

/-- The summary text of write_todos.py lines 119-129. -/
def summaryText (validated : List (Nat × String × String)) : String :=
  let parts :=
    (if countStatus validated "completed" ≠ 0 then
      [toString (countStatus validated "completed") ++ " completed"] else []) ++
    (if countStatus validated "in_progress" ≠ 0 then
      [toString (countStatus validated "in_progress") ++ " in progress"] else []) ++
    (if countStatus validated "pending" ≠ 0 then
      [toString (countStatus validated "pending") ++ " pending"] else []) ++
    (if countStatus validated "cancelled" ≠ 0 then
      [toString (countStatus validated "cancelled") ++ " cancelled"] else [])
  if parts.isEmpty then "empty" else String.intercalate ", " parts

/-- `write_todos` (write_todos.py lines 17-138). -/
def writeTodos (todos : List TodoItem) : TodosResult :=
  match validateAux todos 0 0 [] with
  | .inl e => e
  | .inr (inProgressCount, validated) =>
    if inProgressCount > 1 then .multipleInProgress inProgressCount
    else if validated.isEmpty then .cleared
    else
      .ok (PyStr.joinNl (validated.map formatLine)) validated.length
        (summaryText validated)

end Todos

/-! ## Lexical POSIX path functions (`os.path` on POSIX)

`os.path.abspath`, `join`, `relpath`, `basename` and `isabs` are lexical
string functions on POSIX (no symlink resolution); they are embedded here
as used by `search_file_content`'s output parsing. -/

namespace PyPath

def isAbs (p : String) : Bool := PyStr.pyStartsWith p "/"

def endsWithSlash (s : String) : Bool :=
  match s.toList.getLast? with
  | some c => c = '/'
  | none => false

/-- `os.path.join(a, b)` for two components. -/
def join2 (a b : String) : String :=
  if isAbs b then b
  else if a = "" ∨ endsWithSlash a then a ++ b
  else a ++ "/" ++ b

/-- The component filter of CPython `posixpath.normpath`: keep a
component unless it is empty, `.`, or a `..` that cancels a previous
component.  `acc` holds the kept components in reverse. -/
def normComps (initialSlashes : Nat) : List String → List String → List String
  | [], acc => acc.reverse
  | comp :: rest, acc =>
    if comp = "" ∨ comp = "." then normComps initialSlashes rest acc
    else if comp ≠ ".." ∨ (initialSlashes = 0 ∧ acc = []) ∨ acc.head? = some ".." then
      normComps initialSlashes rest (comp :: acc)
    else
      match acc with
      | [] => normComps initialSlashes rest []
      | _ :: t => normComps initialSlashes rest t

/-- CPython `posixpath.normpath` (lexical; keeps the POSIX exactly-two
leading slashes special case). -/
def normpath (p : String) : String :=
  if p = "" then "."
  else
    let initialSlashes : Nat :=
      if PyStr.pyStartsWith p "//" ∧ ¬ PyStr.pyStartsWith p "///" then 2
      else if PyStr.pyStartsWith p "/" then 1 else 0
    let comps := PyStr.pySplitChar '/' p
    let joined := String.intercalate "/" (normComps initialSlashes comps [])
    let path := String.mk (List.replicate initialSlashes '/') ++ joined
    if path = "" then "." else path

/-- `os.path.abspath`: normalize, prefixing the working directory when
the path is relative. -/
def abspath (cwd p : String) : String :=
  if isAbs p then normpath p else normpath (join2 cwd p)

def commonPrefixLen : List String → List String → Nat
  | a :: as', b :: bs => if a = b then 1 + commonPrefixLen as' bs else 0
  | _, _ => 0

/-- CPython `posixpath.relpath(path, start)`. -/
def relpath (cwd path start : String) : String :=
  let pList := (PyStr.pySplitChar '/' (abspath cwd path)).filter (fun c => c ≠ "")
  let sList := (PyStr.pySplitChar '/' (abspath cwd start)).filter (fun c => c ≠ "")
  let i := commonPrefixLen sList pList
  let relList := List.replicate (sList.length - i) ".." ++ pList.drop i
  if relList.isEmpty then "." else String.intercalate "/" relList

/-- `os.path.basename`: everything after the final slash. -/
def basename (p : String) : String :=
  ⟨(p.toList.reverse.takeWhile (fun c => c ≠ '/')).reverse⟩

end PyPath

/-! ## The `search_file_content` tool
(`src/nexau_harbor/tool_impl/search_file_content.py`) -/

namespace Search

/-- `DEFAULT_TOTAL_MAX_MATCHES` (search_file_content.py line 20). -/
def maxTotalMatches : Nat := 500

/-- A parsed match: `{filePath, lineNumber, line}`
(search_file_content.py lines 83-87). -/
structure GrepMatch where
  filePath : String
  lineNumber : Nat
  line : String
deriving DecidableEq, Repr

/-- A finished subprocess: exit code and the `splitlines()` view of its
captured stdout. -/
structure SubprocResult where
  exitCode : Int
  stdoutLines : List String
deriving DecidableEq, Repr

/-- The outside world consulted by the cascade: whether the `git`/`grep`
binaries exist, whether the search root is a git work tree, the outcome
of each subprocess invocation (`none` models a timeout or exception), the
sequence of matching lines the in-process walker would visit in walk
order, and the validity of the optional `dir_path`. -/
structure SearchEnv where
  cwd : String
  gitAvailable : Bool
  gitIsRepo : Bool
  gitRun : Option SubprocResult
  grepAvailable : Bool
  grepRun : Option SubprocResult
  pythonScan : List GrepMatch
  dirPathExists : Bool
  dirPathIsDir : Bool

/-- Conservative model of `re.compile(p)` succeeding: `true` only for
patterns made of plain literal characters (alphanumerics, underscore,
whitespace), all of which compile under Python `re`; the claims evaluate
it only on such patterns, where it is exact. -/
def reCompileOk (p : String) : Bool :=
  p.toList.all (fun c => c.isAlphanum || PyStr.isPyWs c || c = '_')

def digitsToNat (ds : List Char) : Nat :=
  ds.foldl (fun n c => n * 10 + (c.toNat - '0'.toNat)) 0

/-- The regex split `^(.+?):(\d+):(.*)$` of `_parse_grep_line`
(search_file_content.py line 64): the shortest non-empty prefix followed
by a colon, a maximal non-empty digit run, and another colon.  `accRev`
holds the prefix scanned so far, reversed. -/
def grepSplitAux (accRev : List Char) : List Char →
    Option (List Char × List Char × List Char)
  | [] => none
  | c :: rest =>
    if c = ':' ∧ accRev ≠ [] then
      let digits := rest.takeWhile Char.isDigit
      let after := rest.drop digits.length
      if digits ≠ [] ∧ after.head? = some ':' then
        some (accRev.reverse, digits, after.tail)
      else grepSplitAux (c :: accRev) rest
    else grepSplitAux (c :: accRev) rest

/-- Full-line match of `^(.+?):(\d+):(.*)$`: `.` excludes LF and `$`
accepts at most one final LF, so a line with an interior LF never
matches. -/
def grepLineSplit (line : List Char) : Option (List Char × List Char × List Char) :=
  let core := if line.getLast? = some '\n' then line.dropLast else line
  if core.contains '\n' then none else grepSplitAux [] core

/-- `_parse_grep_line` (search_file_content.py lines 55-87): parse
`path:line:content`, resolve against the search root, and reject any
match whose relative path escapes it. -/
def parseGrepLine (cwd basePath : String) (line : String) : Option GrepMatch :=
  if PyStr.pyStrip line = "" then none
  else
    match grepLineSplit line.toList with
    | none => none
    | some (fileRaw, digits, content) =>
      let absolutePath := PyPath.abspath cwd (PyPath.join2 basePath ⟨fileRaw⟩)
      let relativePath := PyPath.relpath cwd absolutePath basePath
      if PyStr.pyStartsWith relativePath ".." ∨ PyPath.isAbs relativePath then none
      else
        some { filePath := if relativePath ≠ "" then relativePath
                           else PyPath.basename absolutePath,
               lineNumber := digitsToNat digits,
               line := ⟨content⟩ }

/-- The collection loop shared by `_git_grep` and `_system_grep`
(search_file_content.py lines 123-131): parse each stdout line, keep the
parses, and stop once `maxMatches` matches are collected. -/
def collectMatches (cwd basePath : String) (maxMatches : Nat)
    (lines : List String) : List GrepMatch :=
  (lines.filterMap (parseGrepLine cwd basePath)).take maxMatches

/-- `_git_grep` (search_file_content.py lines 90-134): `none` when git is
unavailable, the root is not a work tree, the subprocess times out or
raises, or exits with a code other than 0/1; otherwise the collected
matches. -/
def gitGrep (env : SearchEnv) (basePath : String) (maxMatches : Nat) :
    Option (List GrepMatch) :=
  if ¬ env.gitAvailable then none
  else if ¬ env.gitIsRepo then none
  else
    match env.gitRun with
    | none => none
    | some r =>
      if r.exitCode ≠ 0 ∧ r.exitCode ≠ 1 then none
      else some (collectMatches env.cwd basePath maxMatches r.stdoutLines)

/-- `_system_grep` (search_file_content.py lines 137-190), same shape as
`_git_grep`. -/
def systemGrep (env : SearchEnv) (basePath : String) (maxMatches : Nat) :
    Option (List GrepMatch) :=
  if ¬ env.grepAvailable then none
  else
    match env.grepRun with
    | none => none
    | some r =>
      if r.exitCode ≠ 0 ∧ r.exitCode ≠ 1 then none
      else some (collectMatches env.cwd basePath maxMatches r.stdoutLines)

/-- `_python_grep` (search_file_content.py lines 193-261): an
uncompilable pattern yields `[]`; otherwise the walker's match sequence
capped at `maxMatches`. -/
def pythonGrep (reOk : Bool) (scan : List GrepMatch) (maxMatches : Nat) :
    List GrepMatch :=
  if ¬ reOk then [] else scan.take maxMatches

/-- A `search_file_content` result: `llmContent` and `returnDisplay` as
built by the source (empty `llmContent` stands for the elided prose of
error results), and the error `type` if any. -/
structure SearchResult where
  llmContent : String
  returnDisplay : String
  error : Option String := none
deriving DecidableEq, Repr

/-- Per-file stable ordering of matches (search_file_content.py lines
375-384): group by file path in first-occurrence order, each group
sorted by line number (Python `list.sort` is stable, as is
`mergeSort`). -/
def groupKeys (ms : List GrepMatch) : List String :=
  ms.foldl (fun acc m => if acc.contains m.filePath then acc else acc ++ [m.filePath]) []

def fileMatches (ms : List GrepMatch) (key : String) : List GrepMatch :=
  (ms.filter (fun m => m.filePath = key)).mergeSort
    (fun a b => a.lineNumber ≤ b.lineNumber)

/-- The per-file block of search_file_content.py lines 401-406. -/
def fileBlock (ms : List GrepMatch) (key : String) : String :=
  "File: " ++ key ++ "\n" ++
    String.join ((fileMatches ms key).map
      (fun m => "L" ++ toString m.lineNumber ++ ": " ++ PyStr.pyStrip m.line ++ "\n")) ++
    "---\n"

/-- `search_path` (search_file_content.py lines 303-328): the absolute
form of a truthy `dir_path`, else the working directory. -/
def searchPathOf (env : SearchEnv) (dirPath : Option String) : String :=
  if (dirPath.getD "") ≠ "" then PyPath.abspath env.cwd (dirPath.getD "")
  else env.cwd

/-- `search_file_content` (search_file_content.py lines 264-423). -/
def searchFileContent (pattern : String) (dirPath : Option String)
    (includeGlob : Option String) (env : SearchEnv) : SearchResult :=
  if ¬ reCompileOk pattern then
    { llmContent := "", returnDisplay := "Error: Invalid regex pattern.",
      error := some "INVALID_PATTERN" }
  else
    let usesDir := (dirPath.getD "") ≠ ""
    if usesDir ∧ ¬ env.dirPathExists then
      { llmContent := "", returnDisplay := "Error: Path does not exist.",
        error := some "FILE_NOT_FOUND" }
    else if usesDir ∧ ¬ env.dirPathIsDir then
      { llmContent := "", returnDisplay := "Error: Path is not a directory.",
        error := some "PATH_IS_NOT_A_DIRECTORY" }
    else
      let searchPath := searchPathOf env dirPath
      let searchDirDisplay := if (dirPath.getD "") ≠ "" then dirPath.getD "" else "."
      let foundMatches :=
        match gitGrep env searchPath maxTotalMatches with
        | some ms => ms
        | none =>
          match systemGrep env searchPath maxTotalMatches with
          | some ms => ms
          | none => pythonGrep (reCompileOk pattern) env.pythonScan maxTotalMatches
      let searchLocation := "in path \"" ++ searchDirDisplay ++ "\""
      let filterDesc :=
        if (includeGlob.getD "") ≠ "" then " (filter: \"" ++ includeGlob.getD "" ++ "\")" else ""
      if foundMatches.isEmpty then
        { llmContent := "No matches found for pattern \"" ++ pattern ++ "\" " ++
            searchLocation ++ filterDesc ++ ".",
          returnDisplay := "No matches found", error := none }
      else
        let wasTruncated := foundMatches.length ≥ maxTotalMatches
        let matchCount := foundMatches.length
        let matchTerm := if matchCount = 1 then "match" else "matches"
        let truncationNote :=
          if wasTruncated then
            " (results limited to " ++ toString maxTotalMatches ++
              " matches for performance)"
          else ""
        let body :=
          "Found " ++ toString matchCount ++ " " ++ matchTerm ++ " for pattern \"" ++
            pattern ++ "\" " ++ searchLocation ++ filterDesc ++ truncationNote ++
            ":\n---\n" ++
            String.join ((groupKeys foundMatches).map (fileBlock foundMatches))
        { llmContent := PyStr.pyStrip body,
          returnDisplay := "Found " ++ toString matchCount ++ " " ++ matchTerm ++
            (if wasTruncated then " (limited)" else ""),
          error := none }

end Search

/-! ## Derived predicates and concrete instances used by the theorems -/

namespace PyStr

/-- Automaton for "every LF is part of a CRLF pair": the Boolean state
records whether the previous character was CR. -/
def noBareLFAux : Bool → List Char → Bool
  | _, [] => true
  | prevCR, c :: rest =>
    if c = '\n' then prevCR && noBareLFAux false rest
    else noBareLFAux (c = '\r') rest

/-- Every LF in the list is immediately preceded by a CR — i.e. the text
has CRLF line endings throughout (no bare LF). -/
def noBareLF (l : List Char) : Bool := noBareLFAux false l

end PyStr

/-- C1, failing input: a file containing `foo bar foo`. -/
def c1File : String := "foo bar foo"

/-- C7, boundary input: an existing 10 MiB regular text file. -/
def c7File : ReadFile.FileInfo :=
  { fileExists := true, isDir := false, size := 10 * 1024 * 1024,
    binaryKind := none, lines := ["hello\n"] }

/-- C7 witness input: an existing file one byte over the limit. -/
def c7BigFile : ReadFile.FileInfo :=
  { fileExists := true, isDir := false, size := 10 * 1024 * 1024 + 1,
    binaryKind := none, lines := ["hello\n"] }

/-- C8, counterexample environment: no VCS, no system grep, an empty
workspace. -/
def c8Env : Search.SearchEnv :=
  { cwd := "/w", gitAvailable := false, gitIsRepo := false, gitRun := none,
    grepAvailable := false, grepRun := none, pythonScan := [],
    dirPathExists := false, dirPathIsDir := false }

/-! ## Claim theorems -/

set_option maxRecDepth 16000

/-- Claim C1, a code bug.  `replace` with `expected_replacements = 2` on a
file containing two occurrences of `old_string` passes the occurrence
check (it counts 2) but writes a file in which only the **first**
occurrence was replaced — `_safe_literal_replace` calls
`content.replace(old, new, 1)`.  The file `foo bar foo` becomes
`baz bar foo`: one occurrence of `foo` remains, not
`original_count - k = 0`, contradicting the claim (and the repository's
own test, which expects `baz bar baz`). -/
theorem c1_replace_only_first_occurrence :
    Replace.replaceTool true c1File "foo" "baz" (some 2) =
      .updated "baz bar foo" 2 "exact" ∧
    PyStr.pyCount c1File "foo" = 2 ∧
    PyStr.pyCount "baz bar foo" "foo" = 1 ∧
    PyStr.pyCount "baz bar baz" "foo" = 0 := by decide

/-- Claim C3, confirmed.  If the parsed response contains a
`complete_task` call — possibly alongside other tool calls — the
after-model hook returns a parsed response with an empty tool-call list,
records `task_completed = true` and `final_result` = the `result`
parameter of the (first) `complete_task` call, and does not force
continuation. -/
theorem c3_complete_task_suppresses_tool_calls (st : CompleteTask.MState)
    (p : CompleteTask.ParsedResponse)
    (h : ∃ c ∈ p.toolCalls, c.toolName = CompleteTask.completeTaskToolName) :
    (CompleteTask.afterModel st (some p)).2.parsedResponse =
      some { p with toolCalls := [] } ∧
    (CompleteTask.afterModel st (some p)).1.taskCompleted = true ∧
    (∀ c, p.toolCalls.find?
        (fun c => c.toolName = CompleteTask.completeTaskToolName) = some c →
      (CompleteTask.afterModel st (some p)).1.finalResult =
        CompleteTask.getParam c.parameters "result" "") ∧
    (CompleteTask.afterModel st (some p)).2.forceContinue = false := by
  obtain ⟨c0, hm, hn⟩ := h
  have hsome : (p.toolCalls.find?
      (fun c => c.toolName = CompleteTask.completeTaskToolName)).isSome := by
    rw [List.find?_isSome]
    exact ⟨c0, hm, by simpa using hn⟩
  obtain ⟨c1, hc1⟩ := Option.isSome_iff_exists.mp hsome
  refine ⟨?_, ?_, ?_, ?_⟩ <;>
    simp only [CompleteTask.afterModel, hc1] <;>
    try rfl
  intro c hc
  cases hc
  rfl

/-- Concrete parsed responses for the C3/C4 witnesses. -/
def c3Parsed : CompleteTask.ParsedResponse :=
  { text := "",
    toolCalls := [⟨"complete_task", [("result", "done")]⟩, ⟨"read_file", []⟩] }

theorem c3_witness :
    (CompleteTask.afterModel CompleteTask.initState (some c3Parsed)).2.parsedResponse =
      some { c3Parsed with toolCalls := [] } ∧
    (CompleteTask.afterModel CompleteTask.initState (some c3Parsed)).1.finalResult =
      "done" := by
  have h := c3_complete_task_suppresses_tool_calls CompleteTask.initState c3Parsed
    (by decide)
  exact ⟨h.1, h.2.2.1 ⟨"complete_task", [("result", "done")]⟩ (by decide)⟩

/-- Claim C4, confirmed.  The grace-period state machine: from a fresh
middleware a zero-tool-call turn sets `force_continue` and the counter to
1; the next before-model hook appends the synthetic grace warning; a
second consecutive zero-tool-call turn returns no modifications (counter
2); and a turn with tool calls other than `complete_task` resets the
counter to 0. -/
theorem c4_grace_period_state_machine
    (msgs : List Compact.Message) (p1 p2 q : CompleteTask.ParsedResponse)
    (h1 : p1.toolCalls = []) (h2 : p2.toolCalls = [])
    (hq : q.toolCalls ≠ [])
    (hqc : ∀ c ∈ q.toolCalls, c.toolName ≠ CompleteTask.completeTaskToolName)
    (st : CompleteTask.MState) :
    (CompleteTask.afterModel CompleteTask.initState (some p1)).1.noToolCallCount = 1 ∧
    (CompleteTask.afterModel CompleteTask.initState (some p1)).2.forceContinue = true ∧
    CompleteTask.beforeModel
        (CompleteTask.afterModel CompleteTask.initState (some p1)).1 msgs =
      some (msgs ++ [CompleteTask.graceMessage]) ∧
    (CompleteTask.afterModel
        (CompleteTask.afterModel CompleteTask.initState (some p1)).1 (some p2)).2 =
      {} ∧
    (CompleteTask.afterModel
        (CompleteTask.afterModel CompleteTask.initState (some p1)).1
        (some p2)).1.noToolCallCount = 2 ∧
    (CompleteTask.afterModel st (some q)).1.noToolCallCount = 0 := by
  have hfind1 : p1.toolCalls.find?
      (fun c => c.toolName = CompleteTask.completeTaskToolName) = none := by
    rw [h1]; rfl
  have hfind2 : p2.toolCalls.find?
      (fun c => c.toolName = CompleteTask.completeTaskToolName) = none := by
    rw [h2]; rfl
  have hfindq : q.toolCalls.find?
      (fun c => c.toolName = CompleteTask.completeTaskToolName) = none := by
    rw [List.find?_eq_none]
    intro c hc
    simpa using hqc c hc
  have hqlen : q.toolCalls.length > 0 := List.length_pos.mpr hq
  refine ⟨?_, ?_, ?_, ?_, ?_, ?_⟩ <;>
    simp [CompleteTask.afterModel, CompleteTask.beforeModel, CompleteTask.initState,
      hfind1, hfind2, hfindq, h1, h2, hqlen]

/-- Concrete inputs for the C4 witness. -/
def c4Empty : CompleteTask.ParsedResponse := { text := "", toolCalls := [] }

def c4Other : CompleteTask.ParsedResponse :=
  { text := "", toolCalls := [⟨"read_file", []⟩] }

theorem c4_witness :
    (CompleteTask.afterModel CompleteTask.initState (some c4Empty)).2.forceContinue =
      true ∧
    CompleteTask.beforeModel
        (CompleteTask.afterModel CompleteTask.initState (some c4Empty)).1 [] =
      some [CompleteTask.graceMessage] ∧
    (CompleteTask.afterModel
        (CompleteTask.afterModel CompleteTask.initState (some c4Empty)).1
        (some c4Empty)).2 = {} ∧
    (CompleteTask.afterModel CompleteTask.initState (some c4Other)).1.noToolCallCount =
      0 := by
  have h := c4_grace_period_state_machine [] c4Empty c4Empty c4Other rfl rfl
    (by decide) (by decide) CompleteTask.initState
  exact ⟨h.2.1, h.2.2.1, h.2.2.2.1, h.2.2.2.2.2⟩

/-- Helper for C6: replacing every LF by CRLF leaves no bare LF,
whatever the automaton's incoming state. -/
theorem noBareLFAux_replaceAll_lf_crlf (s : List Char) :
    ∀ prev, PyStr.noBareLFAux prev (PyStr.replaceAllAux ['\n'] ['\r', '\n'] s 0) =
      true := by
  induction s with
  | nil => intro prev; rfl
  | cons c rest ih =>
    intro prev
    by_cases hc : c = '\n'
    · subst hc
      simpa [PyStr.replaceAllAux, PyStr.noBareLFAux, List.isPrefixOf] using ih false
    · simp only [PyStr.replaceAllAux, List.isPrefixOf, Bool.and_eq_true,
        beq_iff_eq, List.isPrefixOf_nil_left, and_true]
      rw [if_neg (fun h => hc h.symm)]
      simp [PyStr.noBareLFAux, hc, ih]

/-- Helper for C6: the CRLF re-encoding has CRLF endings throughout. -/
theorem crlfEncode_noBareLF (content : String) :
    PyStr.noBareLF (WriteFile.crlfEncode content).toList = true := by
  have h := noBareLFAux_replaceAll_lf_crlf
    (PyStr.pyReplaceAll content "\r\n" "\n").toList false
  simpa [WriteFile.crlfEncode, PyStr.pyReplaceAll, PyStr.replaceAllL,
    PyStr.noBareLF] using h

/-- Claim C6, counterexample.  Writing CRLF-bearing content to a file that
does not exist stores it byte-for-byte: the result does **not** use LF
line endings, contradicting the claim's "in every other case" branch. -/
theorem c6_counterexample_new_file_keeps_crlf :
    WriteFile.writeFile false false "" "a\r\nb" = .written "a\r\nb" "create" 2 ∧
    PyStr.pyContains "a\r\nb" "\r\n" = true := by decide

/-- Claim C6, amended.  If the target existed and its detected line ending
was CRLF, the written result is the CRLF re-encoding of the content and
has CRLF endings throughout; in every other case the content is written
unchanged — with whatever line endings it already contains. -/
theorem c6_write_file_line_endings (orig content : String) :
    (WriteFile.detectLineEnding orig = "\r\n" →
      WriteFile.writeFinalContent true orig content = WriteFile.crlfEncode content ∧
      PyStr.noBareLF (WriteFile.writeFinalContent true orig content).toList = true) ∧
    (∀ fe : Bool, ¬ (fe = true ∧ WriteFile.detectLineEnding orig = "\r\n") →
      WriteFile.writeFinalContent fe orig content = content) := by
  constructor
  · intro h
    have heq : WriteFile.writeFinalContent true orig content =
        WriteFile.crlfEncode content := by
      simp [WriteFile.writeFinalContent, h]
    exact ⟨heq, heq ▸ crlfEncode_noBareLF content⟩
  · intro fe hne
    cases fe
    · simp [WriteFile.writeFinalContent]
    · have hd : ¬ WriteFile.detectLineEnding orig = "\r\n" := by
        intro h; exact hne ⟨rfl, h⟩
      simp [WriteFile.writeFinalContent, hd]

theorem c6_witness :
    (WriteFile.writeFinalContent true "a\r\n" "x\ny" = WriteFile.crlfEncode "x\ny" ∧
      PyStr.noBareLF (WriteFile.writeFinalContent true "a\r\n" "x\ny").toList = true) ∧
    WriteFile.writeFinalContent false "a\r\n" "x\ny" = "x\ny" := by
  refine ⟨(c6_write_file_line_endings "a\r\n" "x\ny").1 (by decide),
    (c6_write_file_line_endings "a\r\n" "x\ny").2 false (by decide)⟩

/-- Claim C7, counterexample.  A regular file of exactly
10 MiB = 10485760 bytes is **not** rejected: the check at read_file.py
line 156 is strict (`size > MAX_FILE_SIZE_BYTES`), so the file is read
normally. -/
theorem c7_counterexample_exact_10mib_is_read :
    c7File.size = 10 * 1024 * 1024 ∧
    ReadFile.readFile c7File none none ≠ .err "FILE_TOO_LARGE" ∧
    ReadFile.readFile c7File none none =
      .text { selected := ["hello\n"], startLine := 0, linesShown := 1,
              totalLines := 1, isTruncated := false, nextOffset := none } := by
  decide

/-- Claim C7, amended.  For an existing non-directory path, `read_file`
returns `FILE_TOO_LARGE` exactly when the size strictly exceeds 10 MiB;
a file of exactly 10 MiB is within the limit. -/
theorem c7_read_file_size_gate (f : ReadFile.FileInfo) (offset limit : Option Int)
    (h1 : f.fileExists = true) (h2 : f.isDir = false) :
    (ReadFile.readFile f offset limit = .err "FILE_TOO_LARGE" ↔
      f.size > 10 * 1024 * 1024) := by
  by_cases hs : f.size > ReadFile.maxFileSizeBytes
  · constructor
    · intro _
      simpa [ReadFile.maxFileSizeBytes] using hs
    · intro _
      simp [ReadFile.readFile, h1, h2, hs]
  · constructor
    · intro heq
      exfalso
      cases hk : f.binaryKind <;>
        simp [ReadFile.readFile, h1, h2, hs, hk] at heq
    · intro hgt
      exact absurd (by simpa [ReadFile.maxFileSizeBytes] using hgt) hs

theorem c7_witness :
    ReadFile.readFile c7BigFile none none = .err "FILE_TOO_LARGE" := by
  exact (c7_read_file_size_gate c7BigFile none none rfl rfl).mpr (by decide)

/-- Claim C8, counterexample.  An empty pattern is a perfectly valid
Python regex, so `search_file_content("")` does **not** yield an error:
with no grep binaries and an empty workspace it returns the ordinary
"No matches found" result with no `error` field, contradicting the
claim's search-file-content conjunct. -/
theorem c8_counterexample_empty_pattern_no_error :
    Search.searchFileContent "" none none c8Env =
      { llmContent := "No matches found for pattern \"\" in path \".\".",
        returnDisplay := "No matches found", error := none } := by decide

/-- Helper for C8: the validation loop stops with a
`MISSING_DESCRIPTION` or `INVALID_STATUS` error whenever some entry has
an empty (or whitespace-only) description. -/
theorem validateAux_empty_description (l : List Todos.TodoItem) :
    ∀ i cnt acc, (∃ t ∈ l, PyStr.pyStrip t.description = "") →
      ∃ j e, Todos.validateAux l i cnt acc = .inl e ∧
        (e = .missingDescription j ∨ e = .invalidStatus j) := by
  induction l with
  | nil => intro i cnt acc h; simp at h
  | cons t rest ih =>
    intro i cnt acc h
    by_cases hd : t.description = "" ∨ PyStr.pyStrip t.description = ""
    · exact ⟨i + 1, .missingDescription (i + 1), by simp [Todos.validateAux, hd],
        Or.inl rfl⟩
    · by_cases hst : Todos.validStatuses.contains t.status
      · have hst' : t.status ∈ Todos.validStatuses := by simpa using hst
        obtain ⟨u, hu, hue⟩ := h
        rcases List.mem_cons.mp hu with hu | hu
        · exact absurd (hu ▸ hue) (by push_neg at hd; exact hd.2)
        · obtain ⟨j, e, he, hor⟩ := ih (i + 1)
            (cnt + if t.status = "in_progress" then 1 else 0)
            ((i + 1, PyStr.pyStrip t.description, t.status) :: acc) ⟨u, hu, hue⟩
          exact ⟨j, e, by simpa [Todos.validateAux, hd, hst'] using he, hor⟩
      · have hst' : t.status ∉ Todos.validStatuses := by simpa using hst
        exact ⟨i + 1, .invalidStatus (i + 1),
          by simp [Todos.validateAux, hd, hst'], Or.inr rfl⟩

/-- Claim C8, amended.  An empty command, fact, or todo description each
yield the corresponding Input-category error (`INVALID_COMMAND`,
`INVALID_PARAMETER`, `MISSING_DESCRIPTION` — or `INVALID_STATUS` when an
earlier entry is already illegal).  An empty or whitespace-only search
pattern, however, is a valid regular expression: pattern validation
passes and `search_file_content` never returns `INVALID_PATTERN` for
it. -/
theorem c8_empty_input_errors :
    (∀ (cmd : String) (dirPath : Option String) (de di : Bool),
      PyStr.pyStrip cmd = "" →
        Shell.runShellCommand cmd dirPath de di = .invalidCommand ∧
        Shell.errorType (Shell.runShellCommand cmd dirPath de di) =
          some "INVALID_COMMAND") ∧
    (∀ fact : String, PyStr.pyStrip fact = "" →
      Memory.saveMemory fact = .invalidParameter ∧
      Memory.errorType (Memory.saveMemory fact) = some "INVALID_PARAMETER") ∧
    (∀ todos : List Todos.TodoItem,
      (∃ t ∈ todos, PyStr.pyStrip t.description = "") →
      ∃ j, Todos.writeTodos todos = .missingDescription j ∨
        Todos.writeTodos todos = .invalidStatus j) ∧
    (∀ (p : String) (dirPath includeGlob : Option String) (env : Search.SearchEnv),
      p.toList.all PyStr.isPyWs = true →
      (Search.searchFileContent p dirPath includeGlob env).error ≠
        some "INVALID_PATTERN") := by
  refine ⟨?_, ?_, ?_, ?_⟩
  · intro cmd dirPath de di h
    constructor <;> simp [Shell.runShellCommand, Shell.errorType, h]
  · intro fact h
    constructor <;> simp [Memory.saveMemory, Memory.errorType, h]
  · intro todos h
    obtain ⟨j, e, he, hor⟩ := validateAux_empty_description todos 0 0 [] h
    refine ⟨j, ?_⟩
    rcases hor with h1 | h1 <;>
      [exact Or.inl (by simp [Todos.writeTodos, he, h1]);
       exact Or.inr (by simp [Todos.writeTodos, he, h1])]
  · intro p dirPath includeGlob env hws
    have hre : Search.reCompileOk p = true := by
      rw [Search.reCompileOk, List.all_eq_true]
      intro c hc
      have := (List.all_eq_true.mp hws) c hc
      simp [this]
    unfold Search.searchFileContent
    rw [if_neg (by simp [hre])]
    dsimp only
    split
    · simp
    · split
      · simp
      · split <;> split <;> simp

theorem c8_witness :
    Shell.runShellCommand "" none false false = .invalidCommand ∧
    Memory.saveMemory " " = .invalidParameter ∧
    (∃ j, Todos.writeTodos [⟨"", "pending"⟩] = .missingDescription j ∨
      Todos.writeTodos [⟨"", "pending"⟩] = .invalidStatus j) ∧
    (Search.searchFileContent " " none none c8Env).error ≠ some "INVALID_PATTERN" := by
  refine ⟨(c8_empty_input_errors.1 "" none false false (by decide)).1,
    (c8_empty_input_errors.2.1 " " (by decide)).1,
    c8_empty_input_errors.2.2.1 [⟨"", "pending"⟩] ⟨⟨"", "pending"⟩, by simp, by decide⟩,
    c8_empty_input_errors.2.2.2 " " none none c8Env (by decide)⟩

/-- Claim C9, confirmed.  For an existing text file within the size limit,
`read_file` returns the text slice; a missing or negative offset is
treated as 0 and a missing or non-positive limit as the default 2000; the
returned slice is exactly lines `[start, start + limit)` of the file;
and a partial slice reports `next_offset = start + lines_shown
= start + limit`. -/
theorem c9_read_file_slice (f : ReadFile.FileInfo) (offset limit : Option Int)
    (h1 : f.fileExists = true) (h2 : f.isDir = false)
    (h3 : ¬ f.size > 10 * 1024 * 1024) (h4 : f.binaryKind = none) :
    ReadFile.readFile f offset limit = .text (ReadFile.readSlice f.lines offset limit) ∧
    ReadFile.effStart none = 0 ∧
    (∀ o : Int, ReadFile.effStart (some o) = (max o 0).toNat) ∧
    ReadFile.effLimit none = 2000 ∧
    (∀ l : Int, l ≤ 0 → ReadFile.effLimit (some l) = 2000) ∧
    (∀ l : Int, 0 < l → ReadFile.effLimit (some l) = l.toNat) ∧
    (∀ i : Nat, (ReadFile.readSlice f.lines offset limit).selected.get? i =
      if i < ReadFile.effLimit limit then
        f.lines.get? (ReadFile.effStart offset + i)
      else none) ∧
    (ReadFile.readSlice f.lines offset limit).linesShown =
      min (ReadFile.effLimit limit) (f.lines.length - ReadFile.effStart offset) ∧
    ((ReadFile.readSlice f.lines offset limit).isTruncated = true →
      (ReadFile.readSlice f.lines offset limit).nextOffset =
        some (ReadFile.effStart offset + ReadFile.effLimit limit)) := by
  have hsel : (ReadFile.readSlice f.lines offset limit).selected =
      (f.lines.drop (ReadFile.effStart offset)).take (ReadFile.effLimit limit) := by
    simp [ReadFile.readSlice]
  refine ⟨?_, rfl, ?_, rfl, ?_, ?_, ?_, ?_, ?_⟩
  · simp [ReadFile.readFile, ReadFile.maxFileSizeBytes, h1, h2, h4]
    omega
  · intro o
    simp only [ReadFile.effStart]
    split <;> omega
  · intro l hl
    simp only [ReadFile.effLimit]
    rw [if_neg (by omega)]
    rfl
  · intro l hl
    simp only [ReadFile.effLimit]
    rw [if_pos (by omega)]
  · intro i
    rw [hsel]
    by_cases hi : i < ReadFile.effLimit limit
    · rw [if_pos hi, List.get?_take hi, List.get?_drop]
    · rw [if_neg hi]
      refine List.get?_eq_none.mpr ?_
      exact le_trans (le_trans (List.length_take_le _ _) (Nat.le_of_not_lt hi)) le_rfl
  · have : (ReadFile.readSlice f.lines offset limit).linesShown =
        (ReadFile.readSlice f.lines offset limit).selected.length := by
      simp [ReadFile.readSlice]
    rw [this, hsel, List.length_take, List.length_drop]
  · intro htr
    have hlt : ReadFile.effStart offset + ReadFile.effLimit limit < f.lines.length := by
      have : (ReadFile.readSlice f.lines offset limit).isTruncated =
          decide (ReadFile.effStart offset + ReadFile.effLimit limit <
            f.lines.length) := by
        simp [ReadFile.readSlice]
      rw [this] at htr
      exact of_decide_eq_true htr
    have hshown : (ReadFile.readSlice f.lines offset limit).linesShown =
        ReadFile.effLimit limit := by
      have : (ReadFile.readSlice f.lines offset limit).linesShown =
          (ReadFile.readSlice f.lines offset limit).selected.length := by
        simp [ReadFile.readSlice]
      rw [this, hsel, List.length_take, List.length_drop]
      omega
    have : (ReadFile.readSlice f.lines offset limit).nextOffset =
        if (ReadFile.readSlice f.lines offset limit).isTruncated then
          some (ReadFile.effStart offset +
            (ReadFile.readSlice f.lines offset limit).linesShown)
        else none := by
      simp [ReadFile.readSlice]
    rw [this, if_pos htr, hshown]

/-- C9 witness file: three lines. -/
def c9File : ReadFile.FileInfo :=
  { fileExists := true, isDir := false, size := 12, binaryKind := none,
    lines := ["a\n", "b\n", "c\n"] }

theorem c9_witness :
    ReadFile.readFile c9File (some 1) (some 1) =
      .text (ReadFile.readSlice c9File.lines (some 1) (some 1)) ∧
    (ReadFile.readSlice c9File.lines (some 1) (some 1)).nextOffset = some 2 := by
  have h := c9_read_file_slice c9File (some 1) (some 1) rfl rfl (by decide) rfl
  exact ⟨h.1, h.2.2.2.2.2.2.2.2 (by decide)⟩

/-- Compactor configuration used by the C2/C5 instances: threshold 1/2
and preserve ratio 1/4, both exactly representable, so the Python float
computations `int(x * ratio)` coincide with the embedded floor
divisions. -/
def c2Cfg : Compact.Config :=
  { maxContextTokens := 100, thresholdNum := 1, thresholdDen := 2,
    preserveNum := 1, preserveDen := 4, toolOutputBudget := 50000,
    truncateLines := 30 }

/-- C2 input: a single 200-character user message (60 tokens, above the
trigger of 50, above the preserve budget of 15). -/
def c2Msg : Compact.Message :=
  { role := "user", content := String.mk (List.replicate 200 'x') }

def c2Notice : Compact.Message :=
  { role := "system",
    content := "[Context compacted: 1 messages (~60 tokens) removed. Preserved newest 0 messages.]" }

/-- Claim C2, counterexample.  Compaction triggers on the singleton list
`[c2Msg]` (60 tokens ≥ threshold 50), but the newest — and only —
message does not fit the preserve budget `int(0.25 * 60) = 15`, so the
output is just the compaction notice: the newest message is **dropped**,
contradicting the claim. -/
theorem c2_counterexample_newest_message_dropped :
    Compact.beforeModel c2Cfg Compact.defaultTokenCounter [c2Msg] = some [c2Notice] ∧
    [c2Msg].getLast? = some c2Msg ∧
    c2Msg ∉ [c2Notice] := by decide

/-- Helper: a `some` result of the compactor's before-model hook is the
compressed history. -/
theorem beforeModel_eq_some (cfg : Compact.Config) (tc : String → Nat)
    (msgs out : List Compact.Message)
    (h : Compact.beforeModel cfg tc msgs = some out) :
    out = Compact.compressHistory cfg tc msgs := by
  unfold Compact.beforeModel at h
  split at h
  · exact absurd h (by simp)
  · dsimp only at h
    split at h
    · exact absurd h (by simp)
    · split at h
      · exact (Option.some_inj.mp h).symm
      · exact absurd h (by simp)

/-- Helper: the preserve walk never exceeds its budget, and its token
accumulator is the token sum of the preserved messages. -/
theorem preserveWalk_le (tc : String → Nat) (budget : Nat) :
    ∀ (l : List Compact.Message) (acc : Nat), acc ≤ budget →
      (Compact.preserveWalk tc budget l acc).2 ≤ budget ∧
      (Compact.preserveWalk tc budget l acc).2 =
        acc + Compact.countMessagesTokens tc (Compact.preserveWalk tc budget l acc).1 := by
  intro l
  induction l with
  | nil =>
    intro acc h
    simpa [Compact.preserveWalk, Compact.countMessagesTokens] using h
  | cons m rest ih =>
    intro acc h
    by_cases hfit : acc + Compact.countMessageTokens tc m ≤ budget
    · have hr := ih (acc + Compact.countMessageTokens tc m) hfit
      simp only [Compact.preserveWalk, hfit, if_pos]
      refine ⟨hr.1, ?_⟩
      rw [hr.2]
      simp [Compact.countMessagesTokens, List.sum_append]
      omega
    · simp [Compact.preserveWalk, hfit, Compact.countMessagesTokens]
      exact h

/-- Helper: token counts add over list concatenation. -/
theorem countMessagesTokens_append (tc : String → Nat)
    (a b : List Compact.Message) :
    Compact.countMessagesTokens tc (a ++ b) =
      Compact.countMessagesTokens tc a + Compact.countMessagesTokens tc b := by
  simp [Compact.countMessagesTokens, List.sum_append]

/-- Helper: the system/conversation partition preserves the token sum. -/
theorem countMessagesTokens_partition (tc : String → Nat)
    (msgs : List Compact.Message) :
    Compact.countMessagesTokens tc (Compact.systemPart msgs) +
      Compact.countMessagesTokens tc (Compact.conversationPart msgs) =
      Compact.countMessagesTokens tc msgs := by
  induction msgs with
  | nil => rfl
  | cons m rest ih =>
    unfold Compact.systemPart Compact.conversationPart at ih ⊢
    by_cases hm : m.role = "system"
    · rw [List.filter_cons_of_pos (by simp [hm]), List.filter_cons_of_neg (by simp [hm])]
      simp only [Compact.countMessagesTokens, List.map_cons, List.sum_cons] at ih ⊢
      omega
    · rw [List.filter_cons_of_neg (by simp [hm]), List.filter_cons_of_pos (by simp [hm])]
      simp only [Compact.countMessagesTokens, List.map_cons, List.sum_cons] at ih ⊢
      omega

/-- Helper: the last element survives `filter` when it satisfies the
predicate. -/
theorem getLast?_filter_of_pos {α : Type} (p : α → Bool) (l : List α) (a : α)
    (h : l.getLast? = some a) (hp : p a = true) :
    (l.filter p).getLast? = some a := by
  rw [List.getLast?_eq_head?_reverse] at h ⊢
  rw [← List.filter_reverse]
  obtain ⟨t, ht⟩ := List.head?_eq_some_iff.mp h
  rw [ht, List.filter_cons, if_pos (by simp [hp])]
  rfl

/-- Helper: `getLast?` commutes with `map`. -/
theorem getLast?_map {α β : Type} (f : α → β) (l : List α) :
    (l.map f).getLast? = l.getLast?.map f := by
  rw [List.getLast?_eq_head?_reverse, List.getLast?_eq_head?_reverse,
    ← List.map_reverse, List.head?_map]

/-- Claim C2, amended.  The newest message survives compaction when it is
a system message, or when its post-truncation token estimate fits within
the preserve budget `int(preserve_ratio * tokens(truncated
conversation))`; a newest conversational message exceeding that budget is
dropped. -/
theorem c2_newest_message_preservation (cfg : Compact.Config)
    (tc : String → Nat) (msgs out : List Compact.Message)
    (last : Compact.Message)
    (h : Compact.beforeModel cfg tc msgs = some out)
    (hl : msgs.getLast? = some last) :
    (last.role = "system" → last ∈ out) ∧
    (¬ last.role = "system" →
      Compact.countMessageTokens tc (Compact.truncateMessage cfg tc last) ≤
        Compact.preserveBudget cfg tc msgs →
      Compact.truncateMessage cfg tc last ∈ out) := by
  have hout := beforeModel_eq_some cfg tc msgs out h
  subst hout
  constructor
  · intro hrole
    have hmem : last ∈ Compact.systemPart msgs :=
      List.mem_filter.mpr ⟨List.mem_of_mem_getLast? hl, by simp [hrole]⟩
    cases hg : cfg.snapshotGen <;>
      simp [Compact.compressHistory, hg, hmem]
  · intro hrole hfit
    have hconv : (Compact.conversationPart msgs).getLast? = some last :=
      getLast?_filter_of_pos _ _ _ hl (by simp [hrole])
    have htconv : (Compact.truncatedConversation cfg tc msgs).getLast? =
        some (Compact.truncateMessage cfg tc last) := by
      unfold Compact.truncatedConversation Compact.truncateToolOutputs
      rw [getLast?_map, hconv]
      rfl
    obtain ⟨t, ht⟩ := List.head?_eq_some_iff.mp
      (by rw [← List.getLast?_eq_head?_reverse]; exact htconv)
    have hmem : Compact.truncateMessage cfg tc last ∈
        Compact.preservedPart cfg tc msgs := by
      unfold Compact.preservedPart
      rw [ht]
      simp only [Compact.preserveWalk]
      rw [if_pos (by simpa using hfit)]
      simp
    cases hg : cfg.snapshotGen <;>
      simp [Compact.compressHistory, hg, hmem]

/-- Messages for the C2 witness: compaction triggers and the newest
message fits a 1/2 preserve budget. -/
def c2wCfg : Compact.Config :=
  { maxContextTokens := 100, thresholdNum := 1, thresholdDen := 2,
    preserveNum := 1, preserveDen := 2, toolOutputBudget := 50000,
    truncateLines := 30 }

def c2wBig : Compact.Message :=
  { role := "user", content := String.mk (List.replicate 300 'x') }

def c2wSmall : Compact.Message :=
  { role := "user", content := String.mk (List.replicate 20 'y') }

def c2wNotice : Compact.Message :=
  { role := "system",
    content := "[Context compacted: 1 messages (~85 tokens) removed. Preserved newest 1 messages.]" }

theorem c2_witness :
    Compact.truncateMessage c2wCfg Compact.defaultTokenCounter c2wSmall ∈
      [c2wNotice, c2wSmall] := by
  have h := c2_newest_message_preservation c2wCfg Compact.defaultTokenCounter
    [c2wBig, c2wSmall] [c2wNotice, c2wSmall] c2wSmall (by decide) (by decide)
  exact h.2 (by decide) (by decide)

/-- C5 inputs: one large system message (85 tokens) and one small user
message (15 tokens); compaction triggers at 100 ≥ 50. -/
def c5Sys : Compact.Message :=
  { role := "system", content := String.mk (List.replicate 300 's') }

def c5User : Compact.Message :=
  { role := "user", content := String.mk (List.replicate 20 'u') }

def c5Notice : Compact.Message :=
  { role := "system",
    content := "[Context compacted: 1 messages (~15 tokens) removed. Preserved newest 0 messages.]" }

/-- Claim C5, counterexample.  Compaction triggers on
`[c5Sys, c5User]` (100 tokens ≥ threshold 50); the conversational part
is just the 15-token user message, which exceeds the preserve budget
`int(0.25 * 15) = 3` and is dropped, but the injected compaction notice
costs 30 tokens — the compacted output estimates at 115 tokens, **more**
than the 100 of the input, contradicting the claim. -/
theorem c5_counterexample_tokens_increase :
    Compact.beforeModel c2Cfg Compact.defaultTokenCounter [c5Sys, c5User] =
      some [c5Sys, c5Notice] ∧
    Compact.countMessagesTokens Compact.defaultTokenCounter [c5Sys, c5Notice] = 115 ∧
    Compact.countMessagesTokens Compact.defaultTokenCounter [c5Sys, c5User] = 100 := by
  decide

/-- Claim C5, amended.  With no snapshot generator, a preserve ratio of at
most 1, and tool-output truncation that does not increase any
conversational message's token estimate, the compacted output's token
estimate is bounded by the input's **plus the injected compaction
notice's**; the claimed bound without the notice term fails. -/
theorem c5_compaction_token_bound (cfg : Compact.Config) (tc : String → Nat)
    (msgs out : List Compact.Message)
    (hgen : cfg.snapshotGen = none)
    (hratio : cfg.preserveNum ≤ cfg.preserveDen)
    (h : Compact.beforeModel cfg tc msgs = some out)
    (htr : ∀ m ∈ Compact.conversationPart msgs,
      Compact.countMessageTokens tc (Compact.truncateMessage cfg tc m) ≤
        Compact.countMessageTokens tc m) :
    Compact.countMessagesTokens tc out ≤
      Compact.countMessagesTokens tc msgs +
        Compact.countMessageTokens tc (Compact.compactionNotice cfg tc msgs) := by
  have hout := beforeModel_eq_some cfg tc msgs out h
  subst hout
  have hassemble : Compact.compressHistory cfg tc msgs =
      Compact.systemPart msgs ++ [Compact.compactionNotice cfg tc msgs] ++
        Compact.preservedPart cfg tc msgs := by
    simp [Compact.compressHistory, hgen]
  rw [hassemble, countMessagesTokens_append, countMessagesTokens_append]
  have hw := preserveWalk_le tc (Compact.preserveBudget cfg tc msgs)
    (Compact.truncatedConversation cfg tc msgs).reverse 0 (Nat.zero_le _)
  have hpres : Compact.countMessagesTokens tc (Compact.preservedPart cfg tc msgs) ≤
      Compact.preserveBudget cfg tc msgs := by
    have h2 := hw.2
    rw [Nat.zero_add] at h2
    unfold Compact.preservedPart
    rw [← h2]
    exact hw.1
  have hbud : Compact.preserveBudget cfg tc msgs ≤
      Compact.countMessagesTokens tc (Compact.truncatedConversation cfg tc msgs) := by
    unfold Compact.preserveBudget
    rcases Nat.eq_zero_or_pos cfg.preserveDen with hd | hd
    · simp [hd]
    · exact le_trans
        (Nat.div_le_div_right (Nat.mul_le_mul_left _ hratio))
        (le_of_eq (Nat.mul_div_cancel _ hd))
  have htc : Compact.countMessagesTokens tc (Compact.truncatedConversation cfg tc msgs) ≤
      Compact.countMessagesTokens tc (Compact.conversationPart msgs) := by
    unfold Compact.truncatedConversation Compact.truncateToolOutputs
      Compact.countMessagesTokens
    rw [List.map_map]
    exact List.sum_le_sum htr
  have hpart := countMessagesTokens_partition tc msgs
  have hnote : Compact.countMessagesTokens tc [Compact.compactionNotice cfg tc msgs] =
      Compact.countMessageTokens tc (Compact.compactionNotice cfg tc msgs) := by
    simp [Compact.countMessagesTokens]
  omega

/-- C5 witness inputs satisfying every hypothesis of the amended bound. -/
theorem c5_witness :
    Compact.countMessagesTokens Compact.defaultTokenCounter [c5Sys, c5Notice] ≤
      Compact.countMessagesTokens Compact.defaultTokenCounter [c5Sys, c5User] +
        Compact.countMessageTokens Compact.defaultTokenCounter
          (Compact.compactionNotice c2Cfg Compact.defaultTokenCounter
            [c5Sys, c5User]) := by
  exact c5_compaction_token_bound c2Cfg Compact.defaultTokenCounter
    [c5Sys, c5User] [c5Sys, c5Notice] rfl (by decide) (by decide)
    (by decide)

/-- Claim C10, confirmed.  In the search cascade: (1) a git grep that runs
successfully but finds zero matches ends the cascade — the tool returns
the "No matches found" result; (2) whenever git grep returns a result at
all, the final answer is independent of the system-grep and in-process
walker parts of the environment — the later strategies are never
consulted; (3) git grep yields `none` (letting later strategies run)
exactly when git is unavailable, the root is not a work tree, the
subprocess timed out or raised, or it exited with a code other than
0/1. -/
theorem c10_search_cascade (pattern : String) (dirPath includeGlob : Option String)
    (env : Search.SearchEnv)
    (hre : Search.reCompileOk pattern = true)
    (hd1 : (dirPath.getD "") ≠ "" → env.dirPathExists = true)
    (hd2 : (dirPath.getD "") ≠ "" → env.dirPathIsDir = true) :
    (Search.gitGrep env (Search.searchPathOf env dirPath) Search.maxTotalMatches =
        some [] →
      Search.searchFileContent pattern dirPath includeGlob env =
        { llmContent := "No matches found for pattern \"" ++ pattern ++ "\" " ++
            ("in path \"" ++
              (if (dirPath.getD "") ≠ "" then dirPath.getD "" else ".") ++ "\"") ++
            (if (includeGlob.getD "") ≠ "" then
              " (filter: \"" ++ includeGlob.getD "" ++ "\")" else "") ++ ".",
          returnDisplay := "No matches found", error := none }) ∧
    (∀ ms, Search.gitGrep env (Search.searchPathOf env dirPath)
        Search.maxTotalMatches = some ms →
      ∀ (ga : Bool) (gr : Option Search.SubprocResult) (ps : List Search.GrepMatch),
        Search.searchFileContent pattern dirPath includeGlob
          { env with grepAvailable := ga, grepRun := gr, pythonScan := ps } =
        Search.searchFileContent pattern dirPath includeGlob env) ∧
    (Search.gitGrep env (Search.searchPathOf env dirPath) Search.maxTotalMatches =
        none ↔
      env.gitAvailable = false ∨ env.gitIsRepo = false ∨ env.gitRun = none ∨
        ∃ r, env.gitRun = some r ∧ r.exitCode ≠ 0 ∧ r.exitCode ≠ 1) := by
  refine ⟨?_, ?_, ?_⟩
  · intro hgit
    unfold Search.searchFileContent
    rw [if_neg (by simp [hre])]
    dsimp only
    rw [if_neg (by rintro ⟨h1, h2⟩; exact h2 (hd1 h1)),
      if_neg (by rintro ⟨h1, h2⟩; exact h2 (hd2 h1))]
    rw [hgit]
    rfl
  · intro ms hgit ga gr ps
    have henv : ∀ (bp : String) (mm : Nat),
        Search.gitGrep
          ({ env with grepAvailable := ga, grepRun := gr, pythonScan := ps })
          bp mm =
        Search.gitGrep env bp mm := fun _ _ => rfl
    have hsp : Search.searchPathOf
        ({ env with grepAvailable := ga, grepRun := gr, pythonScan := ps })
        dirPath = Search.searchPathOf env dirPath := rfl
    simp only [Search.searchFileContent, henv, hsp, hgit]
  · constructor
    · intro h
      unfold Search.gitGrep at h
      by_cases ha : env.gitAvailable
      · rw [if_neg (by simp [ha])] at h
        by_cases hb : env.gitIsRepo
        · rw [if_neg (by simp [hb])] at h
          cases hr : env.gitRun with
          | none => exact Or.inr (Or.inr (Or.inl rfl))
          | some r =>
            rw [hr] at h
            dsimp only at h
            split at h
            · next hcode =>
              exact Or.inr (Or.inr (Or.inr ⟨r, rfl, hcode.1, hcode.2⟩))
            · exact absurd h (by simp)
        · exact Or.inr (Or.inl (by simpa using hb))
      · exact Or.inl (by simpa using ha)
    · rintro (h | h | h | ⟨r, hr, h0, h1⟩)
      · unfold Search.gitGrep; simp [h]
      · unfold Search.gitGrep; simp [h]
      · unfold Search.gitGrep; simp [h]
      · unfold Search.gitGrep
        by_cases ha : env.gitAvailable <;> by_cases hb : env.gitIsRepo <;>
          simp [ha, hb, hr, h0, h1]

/-- C10 witness environment: git available in a work tree, `git grep`
exits 1 with empty output; a system grep and a walker match are present
but must not be consulted. -/
def c10Env : Search.SearchEnv :=
  { cwd := "/repo", gitAvailable := true, gitIsRepo := true,
    gitRun := some { exitCode := 1, stdoutLines := [] },
    grepAvailable := true,
    grepRun := some { exitCode := 0, stdoutLines := ["x:1:abc"] },
    pythonScan := [{ filePath := "f", lineNumber := 1, line := "z" }],
    dirPathExists := false, dirPathIsDir := false }

theorem c10_witness :
    Search.searchFileContent "hello" none none c10Env =
      { llmContent := "No matches found for pattern \"hello\" in path \".\".",
        returnDisplay := "No matches found", error := none } := by
  have h := c10_search_cascade "hello" none none c10Env (by decide)
    (by simp) (by simp)
  rw [h.1 (by decide)]
  decide
